import Mathlib

/-!
Verification of the CrewAI-Studio entity store (`app/db_utils.py`) and its
schema-migration tool (`app/migrate_to_json.py`).

The store persists rows `(id, entity_type, data)` in one table whose `data`
column is physically either TEXT (holding a JSON-encoded string) or JSONB
(holding a structured JSON value).  We model Python strings by their JSON-parse
outcome: every Python string either parses (by `json.loads`) to exactly one
JSON value, or fails to parse.  `Str.jsonOf v` stands for a string whose text
parses to `v` (in particular the canonical `json.dumps` output for `v`, which
by the stdlib round-trip contract parses back to `v`), and `Str.plain s`
stands for a string `s` that is not a valid JSON document.  This quotient
keeps `json.dumps` / `json.loads` executable and faithful for every behavior
the store exercises.  JSON numbers are modelled as integers; the store never
inspects numeric payloads.
-/

set_option autoImplicit false

namespace CrewDB

mutual

inductive Json where
  | null : Json
  | bool (b : Bool) : Json
  | num (n : Int) : Json
  | str (s : Str) : Json
  | arr (elems : List Json) : Json
  | obj (fields : List (Str × Json)) : Json

inductive Str where
  | jsonOf (v : Json) : Str
  | plain (s : String) : Str

end

mutual

def beqJson : Json → Json → Bool
  | .null, .null => true
  | .bool a, .bool b => a == b
  | .num a, .num b => a == b
  | .str a, .str b => beqStr a b
  | .arr xs, .arr ys => beqJsonList xs ys
  | .obj xs, .obj ys => beqFieldList xs ys
  | _, _ => false
termination_by structural a => a

def beqStr : Str → Str → Bool
  | .jsonOf a, .jsonOf b => beqJson a b
  | .plain a, .plain b => a == b
  | _, _ => false
termination_by structural a => a

def beqJsonList : List Json → List Json → Bool
  | [], [] => true
  | a :: as, b :: bs => beqJson a b && beqJsonList as bs
  | _, _ => false
termination_by structural a => a

def beqFieldList : List (Str × Json) → List (Str × Json) → Bool
  | [], [] => true
  | (k, v) :: as, (l, w) :: bs => beqStr k l && beqJson v w && beqFieldList as bs
  | _, _ => false
termination_by structural a => a

end

mutual

theorem beqJson_iff : ∀ a b : Json, beqJson a b = true ↔ a = b
  | .null, b => by cases b <;> simp [beqJson]
  | .bool a, b => by cases b <;> simp [beqJson]
  | .num a, b => by cases b <;> simp [beqJson]
  | .str a, b => by cases b <;> simp [beqJson, beqStr_iff a]
  | .arr xs, b => by cases b <;> simp [beqJson, beqJsonList_iff xs]
  | .obj xs, b => by cases b <;> simp [beqJson, beqFieldList_iff xs]

theorem beqStr_iff : ∀ a b : Str, beqStr a b = true ↔ a = b
  | .jsonOf a, b => by cases b <;> simp [beqStr, beqJson_iff a]
  | .plain a, b => by cases b <;> simp [beqStr]

theorem beqJsonList_iff : ∀ xs ys : List Json, beqJsonList xs ys = true ↔ xs = ys
  | [], ys => by cases ys <;> simp [beqJsonList]
  | x :: xs, ys => by
    cases ys <;> simp [beqJsonList, beqJson_iff x, beqJsonList_iff xs]

theorem beqFieldList_iff :
    ∀ xs ys : List (Str × Json), beqFieldList xs ys = true ↔ xs = ys
  | [], ys => by cases ys <;> simp [beqFieldList]
  | (k, v) :: xs, ys => by
    cases ys with
    | nil => simp [beqFieldList]
    | cons p ys =>
      obtain ⟨l, w⟩ := p
      simp [beqFieldList, beqStr_iff k, beqJson_iff v, beqFieldList_iff xs, Prod.ext_iff]

end

instance : DecidableEq Json := fun a b => decidable_of_iff _ (beqJson_iff a b)

instance : DecidableEq Str := fun a b => decidable_of_iff _ (beqStr_iff a b)

/-- Python `json.dumps`: the canonical serialization of `v`, a string that
parses back to `v` (stdlib round-trip contract). -/
def Json.dumps (v : Json) : Str := .jsonOf v

/-- Python `json.loads` on a string: the unique parse of the string, or a
raised `JSONDecodeError` (modelled as `none`) when it is not valid JSON. -/
def Str.loads : Str → Option Json
  | .jsonOf v => some v
  | .plain _ => none

/-- Whether a JSON value is an object (a Python mapping after decoding). -/
def Json.isObj : Json → Bool
  | .obj _ => true
  | _ => false

/-- Whether a JSON value is a string. -/
def Json.isStr : Json → Bool
  | .str _ => true
  | _ => false

/-- Physical representation of the `data` column of the `entities` table:
`CREATE TABLE` in `db_utils.create_tables` picks JSONB on PostgreSQL and TEXT
otherwise. -/
inductive ColType where
  | textCol : ColType
  | jsonbCol : ColType
deriving DecidableEq

/-- The backing database kind, as detected by the repeated
`is_postgres = 'postgresql' in DB_URL.lower()` check in `db_utils.py`. -/
inductive DBKind where
  | postgres : DBKind
  | generic : DBKind
deriving DecidableEq

/-- The column representation a deployment of the given kind uses
(per `create_tables`). -/
def DBKind.col : DBKind → ColType
  | .postgres => .jsonbCol
  | .generic => .textCol

def DBKind.isPg : DBKind → Bool
  | .postgres => true
  | .generic => false

/-- One stored `data` cell: the TEXT representation holds a Python string,
the JSONB representation holds a structured JSON value, and either column may
hold SQL NULL (bound from Python `None`). -/
inductive Cell where
  | text (s : Str) : Cell
  | jsonb (v : Json) : Cell
  | sqlNull : Cell
deriving DecidableEq

/-- One row of the `entities` table. -/
structure Row where
  id : Str
  etype : Str
  cell : Cell
deriving DecidableEq

/-- A decoded `(id, entity_type, data)` record, the element shape of the
export / backup snapshot files. -/
structure Record where
  id : Str
  etype : Str
  data : Json
deriving DecidableEq

/-- Binding a Python-string parameter to the `data` column.  A TEXT column
stores the string as-is; a JSONB column has the server cast the text to
`jsonb`, which parses it and rejects strings that are not valid JSON. -/
def castParam : ColType → Str → Except Unit Cell
  | .textCol, s => .ok (.text s)
  | .jsonbCol, s =>
    match s.loads with
    | some v => .ok (.jsonb v)
    | none => .error ()

/-- The `INSERT ... ON CONFLICT(id) DO UPDATE SET entity_type = ..., data = ...`
statement used by `save_entity`, `import_from_json` and `restore_from_backup`:
if a row with this primary key exists its `entity_type` and `data` are
replaced, otherwise a new row is inserted. -/
def upsertRow (tbl : List Row) (entity_id entity_type : Str) (c : Cell) : List Row :=
  if tbl.any (fun r => r.id == entity_id) then
    tbl.map (fun r => if r.id == entity_id then ⟨entity_id, entity_type, c⟩ else r)
  else
    tbl ++ [⟨entity_id, entity_type, c⟩]

/-- `db_utils.save_entity`: always serializes `data` with `json.dumps` and
runs the upsert with the resulting string parameter. -/
def save_entity (k : DBKind) (tbl : List Row) (entity_type entity_id : Str)
    (data : Json) : Except Unit (List Row) :=
  let json_data := data.dumps
  (castParam k.col json_data).map (fun c => upsertRow tbl entity_id entity_type c)

/-- Per-row processing in `db_utils.load_entities`.  The driver fetches a TEXT
cell as a Python string and a JSONB cell as a decoded Python value — which is
itself a string exactly when the stored JSON value is a string.  The code then
applies `json.loads` iff `isinstance(data, str)`, and returns the value as-is
otherwise. -/
def loadCell : Cell → Except Unit Json
  | .text s =>
    match s.loads with
    | some v => .ok v
    | none => .error ()
  | .jsonb (.str s) =>
    match s.loads with
    | some v => .ok v
    | none => .error ()
  | .jsonb v => .ok v
  | .sqlNull => .ok .null

/-- `db_utils.load_entities`: `SELECT id, data FROM entities WHERE
entity_type = :etype`, then per-row deserialization.  (The function computes
`is_postgres` but never uses it; the branch is driven by `isinstance`.) -/
def load_entities (tbl : List Row) (entity_type : Str) :
    Except Unit (List (Str × Json)) :=
  (tbl.filter (fun r => r.etype == entity_type)).mapM
    (fun r => (loadCell r.cell).map (fun d => (r.id, d)))

/-- `db_utils.delete_entity`: `DELETE FROM entities WHERE id = :id AND
entity_type = :etype`. -/
def delete_entity (tbl : List Row) (entity_type entity_id : Str) : List Row :=
  tbl.filter (fun r => !(r.id == entity_id && r.etype == entity_type))

/-- The JSON object `{"id": ..., "entity_type": ..., "data": ...}` that
`export_to_json` and `backup_data` write for one record. -/
def recordToJson (r : Record) : Json :=
  .obj [(.plain "id", .str r.id), (.plain "entity_type", .str r.etype),
        (.plain "data", r.data)]

/-- Per-row processing in `db_utils.export_to_json`:
`if not is_postgres or isinstance(data, str): data = json.loads(data)`.
A fetched TEXT cell and a fetched JSONB string are Python strings, so they are
always parsed; a fetched structured JSONB value is passed through on
PostgreSQL, while on a non-PostgreSQL engine `json.loads` is applied to the
non-string value and raises `TypeError`. -/
def exportCell (k : DBKind) : Cell → Except Unit Json
  | .text s =>
    match s.loads with
    | some v => .ok v
    | none => .error ()
  | .jsonb (.str s) =>
    match s.loads with
    | some v => .ok v
    | none => .error ()
  | .jsonb v =>
    match k with
    | .postgres => .ok v
    | .generic => .error ()
  | .sqlNull =>
    match k with
    | .postgres => .ok .null
    | .generic => .error ()

/-- `db_utils.export_to_json`: `SELECT * FROM entities`, per-row
deserialization, then `json.dump` of the list of three-field objects.  The
result models the contents of the written file. -/
def export_to_json (k : DBKind) (tbl : List Row) : Except Unit Json :=
  (tbl.mapM (fun r => (exportCell k r.cell).map
    (fun d => recordToJson ⟨r.id, r.etype, d⟩))).map .arr

/-- Binding the `data` parameter of the upsert.  On PostgreSQL the decoded
Python value is passed directly through the untyped `text()` statement: a
string is sent as text and cast to `jsonb` by the server (so it must itself
be valid JSON), `None` binds as SQL NULL, and every other value fails — the
driver has no adapter for dicts, and lists, numbers and booleans bind with
types that mismatch the `jsonb` column.  On a generic engine the value is
re-serialized with `json.dumps` and bound to the TEXT column. -/
def bindDataParam (k : DBKind) (d : Json) : Except Unit Cell :=
  match k with
  | .postgres =>
    match d with
    | .str s => castParam .jsonbCol s
    | .null => .ok .sqlNull
    | _ => .error ()
  | .generic => castParam .textCol d.dumps

/-- Binding an `id` / `entity_type` parameter to the TEXT key columns.  A
string binds as-is.  On a generic engine (TEXT affinity) a number or boolean
is coerced to its decimal text and the statement commits; on PostgreSQL the
untyped non-string literal mismatches the TEXT column and the statement
fails.  `None`, lists and dicts are not accepted as key parameters. -/
def bindKeyParam (k : DBKind) (v : Json) : Except Unit Str :=
  match v with
  | .str s => .ok s
  | .num n =>
    match k with
    | .generic => .ok (.jsonOf (.num n))
    | .postgres => .error ()
  | .bool b =>
    match k with
    | .generic => .ok (.jsonOf (.num (if b then 1 else 0)))
    | .postgres => .error ()
  | _ => .error ()

/-- Processing of one record `entity` of an import / restore document:
`entity['id']`, `entity['entity_type']`, `entity['data']` lookups (a missing
key raises `KeyError`, indexing a non-dict raises `TypeError`), then the
upsert with the two key parameters and with
`entity['data'] if is_postgres else json.dumps(entity['data'])` as the
`data` parameter. -/
def importRecord (k : DBKind) (tbl : List Row) (e : Json) :
    Except Unit (List Row) :=
  match e with
  | .obj fields =>
    match fields.lookup (Str.plain "id"), fields.lookup (Str.plain "entity_type"),
        fields.lookup (Str.plain "data") with
    | some vi, some vt, some d => do
      let i ← bindKeyParam k vi
      let et ← bindKeyParam k vt
      let c ← bindDataParam k d
      pure (upsertRow tbl i et c)
    | _, _, _ => .error ()
  | _ => .error ()

/-- The shared `for entity in data: conn.execute(upsert) ... conn.commit()`
loop of `import_from_json` and `restore_from_backup`.  `commit` happens only
after the whole loop, so an error at any record leaves the table unchanged
(the connection closes without committing).  Iterating a Python non-list only
proceeds when it yields nothing: an empty dict or empty string iterates zero
times, every other non-list raises before any record is processed. -/
def upsertEntities (k : DBKind) (tbl : List Row) (doc : Json) :
    Except Unit (List Row) :=
  match doc with
  | .arr entities => entities.foldlM (importRecord k) tbl
  | .obj [] => .ok tbl
  | .str (.plain s) => if s.isEmpty then .ok tbl else .error ()
  | _ => .error ()

/-- `db_utils.import_from_json`: `json.load` the file, then the upsert loop
with a single commit at the end. -/
def import_from_json (k : DBKind) (tbl : List Row) (doc : Json) :
    Except Unit (List Row) :=
  upsertEntities k tbl doc

/-! ### The migration tool, `app/migrate_to_json.py` -/

/-- Per-row processing in `migrate_to_json.backup_data`: `json.loads(row.data)`
under a `try` that logs and skips the row on any exception.  A fetched TEXT
cell or JSONB string is a Python string and is parsed (`JSONDecodeError` when
invalid); a fetched structured JSONB value is not a string and `json.loads`
raises `TypeError`, so the row is skipped. -/
def backupCell : Cell → Option Json
  | .text s => s.loads
  | .jsonb (.str s) => s.loads
  | .jsonb _ => none
  | .sqlNull => none

/-- The row loop of `backup_data`: rows whose `data` parses are kept in
order, rows that raise are logged and skipped. -/
def backupRows : List Row → List Record
  | [] => []
  | r :: rest =>
    match backupCell r.cell with
    | some d => ⟨r.id, r.etype, d⟩ :: backupRows rest
    | none => backupRows rest

/-- `migrate_to_json.backup_data`: the contents of the snapshot file
`entities_backup.json` written for the given table. -/
def backup_data (tbl : List Row) : Json :=
  .arr ((backupRows tbl).map recordToJson)

/-- The four statements of the representation change in `migrate_to_jsonb`. -/
inductive MigStep where
  | createShadow : MigStep
  | copyRows : MigStep
  | dropOld : MigStep
  | renameShadow : MigStep
deriving DecidableEq

/-- Database state seen by the migrator: the live `entities` table and the
shadow table `entities_new` when it exists. -/
structure DBState where
  live : List Row
  shadow : Option (List Row)
deriving DecidableEq

/-- The `data::jsonb` cast in the copy step `INSERT INTO entities_new ...
SELECT id, entity_type, data::jsonb FROM entities`: a TEXT cell is parsed
(failing on text that is not valid JSON), a JSONB cell is unchanged. -/
def castRowToJsonb (r : Row) : Except Unit Row :=
  match r.cell with
  | .text s =>
    match s.loads with
    | some v => .ok ⟨r.id, r.etype, .jsonb v⟩
    | none => .error ()
  | .jsonb v => .ok ⟨r.id, r.etype, .jsonb v⟩
  | .sqlNull => .ok ⟨r.id, r.etype, .sqlNull⟩

/-- The body of the `try` block of `migrate_to_jsonb`: create `entities_new`
(failing when it already exists or when the statement itself fails), copy and
cast every row, drop `entities`, rename `entities_new` to `entities`.
`failAt` injects an external failure of a given statement. -/
def runMigration (db : DBState) (failAt : MigStep → Bool) :
    Except Unit DBState :=
  if failAt .createShadow || db.shadow.isSome then .error () else
  if failAt .copyRows then .error () else
  match db.live.mapM castRowToJsonb with
  | .error e => .error e
  | .ok copied =>
    if failAt .dropOld then .error () else
    if failAt .renameShadow then .error () else
    .ok ⟨copied, none⟩

/-- `migrate_to_json.migrate_to_jsonb`: returns `False` without touching
anything when not on PostgreSQL; otherwise runs the four statements in one
transaction, committing on success and rolling the whole transaction back on
any exception (so the pre-call state is restored) while reporting `False`. -/
def migrate_to_jsonb (isPostgres : Bool) (db : DBState)
    (failAt : MigStep → Bool) : Bool × DBState :=
  if !isPostgres then (false, db)
  else
    match runMigration db failAt with
    | .ok db2 => (true, db2)
    | .error _ => (false, db)

/-- `migrate_to_json.restore_from_backup`: reads the snapshot, recreates the
table if needed (a no-op here: the live table always exists after a rolled
back migration), runs the same upsert loop as the import, and catches every
exception, reporting success as a boolean and leaving the table unchanged on
failure (the transaction is never committed). -/
def restore_from_backup (k : DBKind) (doc : Json) (tbl : List Row) :
    Bool × List Row :=
  match upsertEntities k tbl doc with
  | .ok tbl2 => (true, tbl2)
  | .error _ => (false, tbl)

/-- Trace events of one run of the migrator's `main`. -/
inductive Event where
  | backupEv (snapshot : Json) : Event
  | migrateEv (ok : Bool) : Event
  | restoreEv (snapshot : Json) (ok : Bool) : Event
deriving DecidableEq

/-- `migrate_to_json.main`: back up first, then attempt the migration; on a
reported failure, restore from the just-created snapshot and report the
restore's own outcome. -/
def main (k : DBKind) (db : DBState) (failAt : MigStep → Bool) :
    List Event × DBState :=
  let snapshot := backup_data db.live
  let res := migrate_to_jsonb k.isPg db failAt
  if res.1 then
    ([.backupEv snapshot, .migrateEv true], res.2)
  else
    let rest := restore_from_backup k snapshot res.2.live
    ([.backupEv snapshot, .migrateEv false, .restoreEv snapshot rest.1],
      ⟨rest.2, res.2.shadow⟩)

/-! ### Derived notions used to state the specification properties -/

/-- Whether an operation raised no exception. -/
def isOkE {α : Type} : Except Unit α → Bool
  | .ok _ => true
  | .error _ => false

/-- The primary-key invariant of the `entities` table: `id` values are
pairwise distinct. -/
def uniqueIds (tbl : List Row) : Prop := (tbl.map Row.id).Nodup

instance (tbl : List Row) : Decidable (uniqueIds tbl) :=
  inferInstanceAs (Decidable ((tbl.map Row.id).Nodup))

/-- The value `load_entities` produces for a cell (meaningful when `loadCell`
succeeds). -/
def loadVal (c : Cell) : Json :=
  match loadCell c with
  | .ok v => v
  | .error _ => .null

/-- The cell `save_entity` physically stores for payload `d`: the serialized
string on a TEXT column, the parsed value (of the server-side `jsonb` cast of
the serialized string) on a JSONB column. -/
def encodedCell (k : DBKind) (d : Json) : Cell :=
  match k with
  | .postgres => .jsonb d
  | .generic => .text d.dumps

/-- A row of a table in the spec's data model for deployment kind `k`: the
cell is in the representation `create_tables` chose for `k`, and its decoded
payload is a structured mapping (spec §3: `data` is a string-keyed mapping). -/
def rowIsMapping (k : DBKind) (r : Row) : Bool :=
  match k, r.cell with
  | .generic, .text (.jsonOf (.obj _)) => true
  | .postgres, .jsonb (.obj _) => true
  | _, _ => false

/-- The decoded payload of a row (meaningful on cells that decode). -/
def rowData (r : Row) : Json :=
  match r.cell with
  | .text s => s.loads.getD .null
  | .jsonb v => v
  | .sqlNull => .null

/-- Whether a record's `data` value can be bound to the `data` column of a
deployment of kind `k`: on PostgreSQL only a JSON string whose text parses
under the server's `jsonb` cast, or `null` (Python `None`, stored as SQL
NULL), binds; on a generic engine the value is re-serialized with
`json.dumps` and always binds. -/
def wfData (k : DBKind) (d : Json) : Bool :=
  match k, d with
  | .postgres, .str s => (s.loads).isSome
  | .postgres, .null => true
  | .postgres, _ => false
  | .generic, _ => true

/-- A well-formed record of an import / restore document (spec §6 snapshot
format): an object with `id` and `entity_type` fields holding strings and a
`data` field whose value binds to the current representation. -/
def wellFormedRec (k : DBKind) (e : Json) : Bool :=
  match e with
  | .obj fields =>
    match fields.lookup (Str.plain "id"), fields.lookup (Str.plain "entity_type"),
        fields.lookup (Str.plain "data") with
    | some (.str _), some (.str _), some d => wfData k d
    | _, _, _ => false
  | _ => false

/-- The key value a record's field under `key` binds to (meaningful when the
binding succeeds; a well-formed record's string fields bind to themselves). -/
def recKeyField (k : DBKind) (e : Json) (key : String) : Str :=
  match e with
  | .obj fields =>
    match fields.lookup (Str.plain key) with
    | some v =>
      match bindKeyParam k v with
      | .ok s => s
      | .error _ => .plain ""
    | none => .plain ""
  | _ => .plain ""

/-- The `data` field of a record. -/
def recDataField (e : Json) : Json :=
  match e with
  | .obj fields => (fields.lookup (Str.plain "data")).getD .null
  | _ => .null

/-- The cell a well-formed record's `data` value is stored as. -/
def bindDataCell (k : DBKind) (d : Json) : Cell :=
  match bindDataParam k d with
  | .ok c => c
  | .error _ => .text (.plain "")

/-- A record that certainly aborts the import on every engine of kind `k`:
it is not an object, lacks one of the three fields, or its `data` value
cannot be bound to the current representation. -/
def abortsRec (k : DBKind) (e : Json) : Bool :=
  match e with
  | .obj fields =>
    match fields.lookup (Str.plain "id"), fields.lookup (Str.plain "entity_type"),
        fields.lookup (Str.plain "data") with
    | some _, some _, some d => !(wfData k d)
    | _, _, _ => true
  | _ => true

/-- Whether the record's processing by the import loop raises no exception:
the structure is a three-field object and all three parameters bind. -/
def recBinds (k : DBKind) (e : Json) : Bool :=
  match e with
  | .obj fields =>
    match fields.lookup (Str.plain "id"), fields.lookup (Str.plain "entity_type"),
        fields.lookup (Str.plain "data") with
    | some vi, some vt, some d =>
      isOkE (bindKeyParam k vi) && isOkE (bindKeyParam k vt)
        && isOkE (bindDataParam k d)
    | _, _, _ => false
  | _ => false

/-! ### Helper lemmas -/

theorem mapM_ok_of_forall {α β : Type} (f : α → Except Unit β) (g : α → β) :
    ∀ l : List α, (∀ a ∈ l, f a = .ok (g a)) → l.mapM f = .ok (l.map g)
  | [] => fun _ => rfl
  | a :: l => fun h => by
    rw [List.mapM_cons, h a (by simp),
      mapM_ok_of_forall f g l (fun x hx => h x (by simp [hx]))]
    rfl

theorem mapM_error_of_exists {α β : Type} (f : α → Except Unit β) :
    ∀ l : List α, (∃ a ∈ l, f a = .error ()) → l.mapM f = .error ()
  | [], h => by simp at h
  | a :: l, h => by
    rcases h with ⟨x, hx, hfx⟩
    cases hfa : f a with
    | error e => rw [List.mapM_cons, hfa]; rfl
    | ok b =>
      rcases List.mem_cons.1 hx with rfl | hx2
      · rw [hfa] at hfx; exact absurd hfx (by simp)
      · rw [List.mapM_cons, hfa, mapM_error_of_exists f l ⟨x, hx2, hfx⟩]
        rfl

theorem filter_id_replace (i : Str) (et : Str) (c : Cell) :
    ∀ tbl : List Row, uniqueIds tbl →
    (tbl.map (fun r => if r.id == i then ⟨i, et, c⟩ else r)).filter
        (fun r => r.id == i)
      = if tbl.any (fun r => r.id == i) then [⟨i, et, c⟩] else []
  | [], _ => by simp
  | r :: rest, h => by
    have hrest : uniqueIds rest := by
      simpa [uniqueIds] using (List.nodup_cons.1 h).2
    have hnotin : r.id ∉ rest.map Row.id := by
      simpa [uniqueIds] using (List.nodup_cons.1 h).1
    have ih := filter_id_replace i et c rest hrest
    by_cases hid : r.id = i
    · have hnone : ∀ x ∈ rest, (x.id == i) = false := by
        intro x hx
        have hxm : x.id ∈ rest.map Row.id := List.mem_map_of_mem Row.id hx
        by_contra hxb
        have hxi : x.id = i := by simpa using hxb
        rw [hxi, ← hid] at hxm
        exact hnotin hxm
      have hanyr : rest.any (fun q => q.id == i) = false := by
        rw [List.any_eq_false]
        intro x hx
        simp [hnone x hx]
      have htail :
          (rest.map (fun q => if q.id == i then ⟨i, et, c⟩ else q)).filter
              (fun q => q.id == i) = [] := by
        rw [ih, hanyr]
        simp
      have hrb : (r.id == i) = true := by simp [hid]
      simp only [List.map_cons, List.filter_cons, List.any_cons]
      simp [hrb, htail]
      intro a ha
      have hf : a.id ≠ i := by simpa using hnone a ha
      simp [hf]
    · have hrb : (r.id == i) = false := by simp [hid]
      simp only [List.map_cons, List.filter_cons, List.any_cons]
      simp [hrb]
      simpa using ih

theorem upsertRow_filter_id (tbl : List Row) (i et : Str) (c : Cell)
    (h : uniqueIds tbl) :
    (upsertRow tbl i et c).filter (fun r => r.id == i) = [⟨i, et, c⟩] := by
  unfold upsertRow
  by_cases hany : tbl.any (fun r => r.id == i) = true
  · rw [if_pos hany, filter_id_replace i et c tbl h, if_pos hany]
  · have hany2 : tbl.any (fun r => r.id == i) = false := by simpa using hany
    have hnone : ∀ x ∈ tbl, (x.id == i) = false := by
      simpa [List.any_eq_false] using hany2
    rw [if_neg (by simp [hany2]), List.filter_append]
    have h1 : tbl.filter (fun r => r.id == i) = [] :=
      List.filter_eq_nil_iff.2 (fun a ha => by simp [hnone a ha])
    simp [h1]

theorem upsertRow_length (tbl : List Row) (i et : Str) (c : Cell) :
    (upsertRow tbl i et c).length =
      if tbl.any (fun r => r.id == i) then tbl.length else tbl.length + 1 := by
  unfold upsertRow
  split <;> simp

theorem mem_upsertRow (tbl : List Row) (i et : Str) (c : Cell) (r : Row)
    (h : r ∈ upsertRow tbl i et c) : r = ⟨i, et, c⟩ ∨ r ∈ tbl := by
  unfold upsertRow at h
  split at h
  · rcases List.mem_map.1 h with ⟨x, hx, hxr⟩
    by_cases hxi : (x.id == i) = true
    · left; rw [if_pos hxi] at hxr; exact hxr.symm
    · right; rw [if_neg hxi] at hxr; exact hxr ▸ hx
  · rcases List.mem_append.1 h with h1 | h1
    · right; exact h1
    · left; simpa using h1

theorem upsertRow_uniqueIds (tbl : List Row) (i et : Str) (c : Cell)
    (h : uniqueIds tbl) : uniqueIds (upsertRow tbl i et c) := by
  unfold upsertRow
  split
  · have hmap : (tbl.map (fun r => if r.id == i then (⟨i, et, c⟩ : Row) else r)).map Row.id
        = tbl.map Row.id := by
      rw [List.map_map]
      refine List.map_congr_left (fun r _ => ?_)
      by_cases hr : (r.id == i) = true
      · have hid : r.id = i := by simpa using hr
        simp [Function.comp, hr, hid]
      · simp [Function.comp, hr]
    unfold uniqueIds
    rw [hmap]
    exact h
  · rename_i hany
    have hany2 : tbl.any (fun r => r.id == i) = false := by simpa using hany
    have hnone : ∀ x ∈ tbl, (x.id == i) = false := by
      simpa [List.any_eq_false] using hany2
    have hni : i ∉ tbl.map Row.id := by
      intro hmem
      rcases List.mem_map.1 hmem with ⟨x, hx, hxi⟩
      have := hnone x hx
      rw [hxi] at this
      simp at this
    simp only [uniqueIds, List.map_append, List.map_cons, List.map_nil]
    exact List.Nodup.append h (List.nodup_singleton i)
      (by simpa [List.disjoint_right] using hni)

theorem backupRows_eq_filterMap : ∀ tbl : List Row,
    backupRows tbl = tbl.filterMap (fun r => (backupCell r.cell).map
      (fun d => (⟨r.id, r.etype, d⟩ : Record)))
  | [] => rfl
  | r :: rest => by
    have ih := backupRows_eq_filterMap rest
    cases hbc : backupCell r.cell <;>
      simp [backupRows, List.filterMap_cons, hbc, ih]

theorem backupRows_nil_of_structured : ∀ tbl : List Row,
    (∀ r ∈ tbl, ∃ v, r.cell = Cell.jsonb v ∧ v.isStr = false) →
    backupRows tbl = []
  | [], _ => rfl
  | r :: rest, h => by
    obtain ⟨v, hcell, hstr⟩ := h r (by simp)
    have ih := backupRows_nil_of_structured rest (fun x hx => h x (by simp [hx]))
    have hbc : backupCell r.cell = none := by
      rw [hcell]
      cases v
      case str s => simp [Json.isStr] at hstr
      all_goals simp [backupCell]
    simp [backupRows, hbc, ih]

/-! ### The claims -/

/-- Claim C6: for every table state, `backup_data` succeeds and its snapshot
contains exactly the rows whose `data` value parsed successfully; a row whose
`data` fails to parse is skipped (it contributes no record) without failing
the backup step, and every cleanly parsed row does contribute its record. -/
theorem C6_backup_best_effort (tbl : List Row) :
    backupRows tbl = tbl.filterMap (fun r => (backupCell r.cell).map
        (fun d => (⟨r.id, r.etype, d⟩ : Record)))
      ∧ (∀ r ∈ tbl, ∀ d, backupCell r.cell = some d →
          (⟨r.id, r.etype, d⟩ : Record) ∈ backupRows tbl)
      ∧ (∀ rec ∈ backupRows tbl, ∃ r ∈ tbl,
          rec.id = r.id ∧ rec.etype = r.etype ∧ backupCell r.cell = some rec.data) := by
  refine ⟨backupRows_eq_filterMap tbl, fun r hr d hd => ?_, fun rec hrec => ?_⟩
  · rw [backupRows_eq_filterMap]
    exact List.mem_filterMap.2 ⟨r, hr, by simp [hd]⟩
  · rw [backupRows_eq_filterMap] at hrec
    rcases List.mem_filterMap.1 hrec with ⟨r, hr, hf⟩
    cases hbc : backupCell r.cell with
    | none => rw [hbc] at hf; simp at hf
    | some d =>
      rw [hbc] at hf
      injection hf with hf2
      subst hf2
      exact ⟨r, hr, rfl, rfl, by rw [hbc]⟩

/-- Witness for C6: a cleanly parsed row appears in the backup even when a
malformed row sits next to it. -/
theorem C6_backup_best_effort_witness :
    (⟨Str.plain "a1", Str.plain "agent", Json.obj []⟩ : Record)
      ∈ backupRows [⟨.plain "a1", .plain "agent", .text (.jsonOf (.obj []))⟩,
          ⟨.plain "b", .plain "bad", .text (.plain "junk")⟩] :=
  (C6_backup_best_effort _).2.1
    ⟨.plain "a1", .plain "agent", .text (.jsonOf (.obj []))⟩ (by decide)
    (.obj []) (by decide)

/-- Claim C8: `delete_entity` removes exactly the rows matching both the id
and the entity type; it is idempotent, and when nothing matches (mismatched
type or missing id) it is a no-op that leaves all other rows untouched. -/
theorem C8_delete_exact (tbl : List Row) (t i : Str) :
    (∀ r : Row, r ∈ delete_entity tbl t i ↔ r ∈ tbl ∧ ¬(r.id = i ∧ r.etype = t))
      ∧ delete_entity (delete_entity tbl t i) t i = delete_entity tbl t i
      ∧ ((∀ r ∈ tbl, ¬(r.id = i ∧ r.etype = t)) → delete_entity tbl t i = tbl) := by
  refine ⟨fun r => ?_, ?_, fun h => ?_⟩
  · simp only [delete_entity, List.mem_filter]
    constructor
    · rintro ⟨hmem, hb⟩
      refine ⟨hmem, fun hand => ?_⟩
      simp [hand.1, hand.2] at hb
    · rintro ⟨hmem, hni⟩
      refine ⟨hmem, ?_⟩
      by_cases h1 : r.id = i
      · have h2 : r.etype ≠ t := fun h2 => hni ⟨h1, h2⟩
        simp [h2]
      · simp [h1]
  · simp [delete_entity, List.filter_filter]
  · refine List.filter_eq_self.2 (fun r hr => ?_)
    by_cases h1 : r.id = i
    · have h2 : r.etype ≠ t := fun h2 => h r hr ⟨h1, h2⟩
      simp [h2]
    · simp [h1]

/-- Claim C10: `backup_data` parses every row's fetched `data` with
`json.loads` unconditionally, so on an already-migrated table (JSONB cells
holding non-string values) every row fails to parse and is skipped: the
snapshot is the empty array, and restoring from that snapshot upserts nothing
and reports success. -/
theorem C10_backup_of_migrated_table (k : DBKind) (tbl tbl2 : List Row)
    (h : ∀ r ∈ tbl, ∃ v, r.cell = Cell.jsonb v ∧ v.isStr = false) :
    backup_data tbl = .arr []
      ∧ restore_from_backup k (backup_data tbl) tbl2 = (true, tbl2) := by
  have hrows : backupRows tbl = [] := backupRows_nil_of_structured tbl h
  constructor
  · rw [backup_data, hrows]
    rfl
  · rw [backup_data, hrows]
    rfl

/-- Claim C9: `load_entities t` returns exactly the `(id, data)` pairs of the
rows whose `entity_type` is `t` (in particular never a row of another type),
and returns the empty list rather than an error when no row matches. -/
theorem C9_load_type_isolation (tbl : List Row) (t : Str) :
    ((∀ r ∈ tbl, r.etype = t → isOkE (loadCell r.cell) = true) →
      load_entities tbl t
        = .ok ((tbl.filter (fun r => r.etype == t)).map
            (fun r => (r.id, loadVal r.cell))))
    ∧ ((∀ r ∈ tbl, r.etype ≠ t) → load_entities tbl t = .ok []) := by
  constructor
  · intro h
    unfold load_entities
    refine mapM_ok_of_forall _ _ _ (fun r hr => ?_)
    rcases List.mem_filter.1 hr with ⟨hmem, hbt⟩
    have ht : r.etype = t := by simpa using hbt
    cases hc : loadCell r.cell with
    | ok v =>
      have hv : loadVal r.cell = v := by simp [loadVal, hc]
      rw [hv]
      rfl
    | error e =>
      have := h r hmem ht
      rw [hc] at this
      simp [isOkE] at this
  · intro h
    have hfil : tbl.filter (fun r => r.etype == t) = [] :=
      List.filter_eq_nil_iff.2 (fun r hr => by simp [h r hr])
    rw [load_entities, hfil]
    rfl

/-- Witness for C8: deleting id `a1` with mismatched type `task` is a no-op. -/
theorem C8_delete_exact_witness :
    delete_entity [⟨.plain "a1", .plain "agent", .jsonb (.obj [])⟩]
        (.plain "task") (.plain "a1")
      = [⟨.plain "a1", .plain "agent", .jsonb (.obj [])⟩] :=
  (C8_delete_exact _ _ _).2.2 (by decide)

/-- Witness for C9: a malformed row of another type does not disturb loading
the requested type. -/
theorem C9_load_type_isolation_witness :
    load_entities
        [⟨.plain "a1", .plain "agent", .text (.jsonOf (.obj []))⟩,
         ⟨.plain "x", .plain "task", .text (.plain "junk")⟩] (.plain "agent")
      = .ok [(.plain "a1", .obj [])] :=
  ((C9_load_type_isolation _ _).1 (by decide)).trans rfl

/-- Witness for C10: backing up a one-row migrated table yields the empty
snapshot and restoring it changes nothing. -/
theorem C10_backup_of_migrated_table_witness :
    backup_data [⟨.plain "a1", .plain "agent", .jsonb (.obj [])⟩] = .arr []
      ∧ restore_from_backup .postgres
          (backup_data [⟨.plain "a1", .plain "agent", .jsonb (.obj [])⟩]) []
        = (true, []) :=
  C10_backup_of_migrated_table .postgres _ _
    (by
      intro r hr
      rw [List.mem_singleton] at hr
      subst hr
      exact ⟨.obj [], rfl, rfl⟩)

theorem save_entity_eq (k : DBKind) (tbl : List Row) (t i : Str) (d : Json) :
    save_entity k tbl t i d = .ok (upsertRow tbl i t (encodedCell k d)) := by
  cases k <;> rfl

/-- Claim C3: `save_entity` grows the table by at most one row; a save on an
existing id keeps the row count and fully replaces that row's `entity_type`
and `data`; saving the same `(id, data)` twice leaves exactly one row with
that id.  (The primary-key invariant `uniqueIds` is maintained.) -/
theorem C3_upsert_semantics (k : DBKind) (tbl : List Row) (t i : Str) (d : Json)
    (h : uniqueIds tbl) :
    ∃ t1, save_entity k tbl t i d = .ok t1
      ∧ t1.length ≤ tbl.length + 1
      ∧ uniqueIds t1
      ∧ ((∃ r ∈ tbl, r.id = i) → t1.length = tbl.length)
      ∧ (∀ r ∈ t1, r.id = i → r.etype = t ∧ r.cell = encodedCell k d)
      ∧ ∃ t2, save_entity k t1 t i d = .ok t2
          ∧ (t2.filter (fun r => r.id == i)).length = 1 := by
  refine ⟨upsertRow tbl i t (encodedCell k d), save_entity_eq k tbl t i d,
    ?_, upsertRow_uniqueIds tbl i t _ h, ?_, ?_, ?_⟩
  · rw [upsertRow_length]
    split <;> omega
  · rintro ⟨r, hr, hri⟩
    have hany : tbl.any (fun q => q.id == i) = true :=
      List.any_eq_true.2 ⟨r, hr, by simp [hri]⟩
    rw [upsertRow_length, if_pos hany]
  · intro r hrmem hri
    have hfl := upsertRow_filter_id tbl i t (encodedCell k d) h
    have hmem2 : r ∈ (upsertRow tbl i t (encodedCell k d)).filter (fun q => q.id == i) :=
      List.mem_filter.2 ⟨hrmem, by simp [hri]⟩
    rw [hfl, List.mem_singleton] at hmem2
    subst hmem2
    exact ⟨rfl, rfl⟩
  · refine ⟨upsertRow (upsertRow tbl i t (encodedCell k d)) i t (encodedCell k d),
      save_entity_eq k _ t i d, ?_⟩
    rw [upsertRow_filter_id _ i t _ (upsertRow_uniqueIds tbl i t _ h)]
    rfl

/-- Witness for C3 on the empty PostgreSQL table. -/
theorem C3_upsert_semantics_witness :
    ∃ t1, save_entity .postgres [] (.plain "agent") (.plain "a1") (.obj []) = .ok t1
      ∧ t1.length ≤ ([] : List Row).length + 1
      ∧ uniqueIds t1
      ∧ ((∃ r ∈ ([] : List Row), r.id = .plain "a1") → t1.length = ([] : List Row).length)
      ∧ (∀ r ∈ t1, r.id = .plain "a1" →
          r.etype = .plain "agent" ∧ r.cell = encodedCell .postgres (.obj []))
      ∧ ∃ t2, save_entity .postgres t1 (.plain "agent") (.plain "a1") (.obj []) = .ok t2
          ∧ (t2.filter (fun r => r.id == Str.plain "a1")).length = 1 :=
  C3_upsert_semantics .postgres [] (.plain "agent") (.plain "a1") (.obj []) (by decide)

/-- Claim C2: if any step of the representation change fails — an injected
statement failure at any of the four steps, an uncastable row in the copy
step, or a pre-existing shadow table — then `migrate_to_jsonb` rolls the
transaction back, reports failure, and leaves the database (in particular the
live `entities` table) exactly as it was before the call. -/
theorem C2_migration_rollback (db : DBState) (failAt : MigStep → Bool)
    (h : failAt .createShadow = true ∨ failAt .copyRows = true
      ∨ failAt .dropOld = true ∨ failAt .renameShadow = true
      ∨ (∃ r ∈ db.live, castRowToJsonb r = .error ())
      ∨ db.shadow.isSome = true) :
    migrate_to_jsonb true db failAt = (false, db) := by
  have herr : runMigration db failAt = .error () := by
    unfold runMigration
    by_cases h1 : (failAt .createShadow || db.shadow.isSome) = true
    · rw [if_pos h1]
    · rw [if_neg h1]
      have h1f : failAt .createShadow = false ∧ db.shadow.isSome = false := by
        simpa [not_or] using h1
      by_cases h2 : failAt .copyRows = true
      · rw [if_pos h2]
      · rw [if_neg h2]
        cases hm : db.live.mapM castRowToJsonb with
        | error e => cases e; rfl
        | ok copied =>
          rcases h with hh | hh | hh | hh | ⟨r, hr, hcast⟩ | hh
          · rw [h1f.1] at hh
            exact absurd hh (by simp)
          · exact absurd hh h2
          · simp [hh]
          · simp [hh]
          · have hme := mapM_error_of_exists castRowToJsonb db.live ⟨r, hr, hcast⟩
            rw [hm] at hme
            exact absurd hme (by simp)
          · rw [h1f.2] at hh
            exact absurd hh (by simp)
  simp [migrate_to_jsonb, herr]

/-- Witness for C2: an injected failure of the shadow-table creation on an
empty database rolls back to the initial state. -/
theorem C2_migration_rollback_witness :
    migrate_to_jsonb true ⟨[], none⟩ (fun s => s == MigStep.createShadow)
      = (false, ⟨[], none⟩) :=
  C2_migration_rollback ⟨[], none⟩ _ (Or.inl (by decide))

/-- Claim C7: `main` always performs the backup first (the first trace event
is the backup of the pre-migration table); whenever migration reports
failure, restore is attempted with the snapshot produced by that backup and
the restore's own outcome is reported distinctly; restore is never attempted
when migration reports success. -/
theorem C7_orchestration (k : DBKind) (db : DBState) (failAt : MigStep → Bool) :
    ∃ snap, snap = backup_data db.live
      ∧ ((main k db failAt).1).head? = some (.backupEv snap)
      ∧ Event.migrateEv (migrate_to_jsonb k.isPg db failAt).1 ∈ (main k db failAt).1
      ∧ (∀ s ok, Event.restoreEv s ok ∈ (main k db failAt).1 →
          s = snap ∧ Event.migrateEv false ∈ (main k db failAt).1)
      ∧ (Event.migrateEv true ∈ (main k db failAt).1 →
          ∀ s ok, Event.restoreEv s ok ∉ (main k db failAt).1)
      ∧ ((migrate_to_jsonb k.isPg db failAt).1 = false →
          Event.restoreEv snap
              (restore_from_backup k snap
                (migrate_to_jsonb k.isPg db failAt).2.live).1
            ∈ (main k db failAt).1) := by
  refine ⟨backup_data db.live, rfl, ?_⟩
  cases hres : (migrate_to_jsonb k.isPg db failAt).1 with
  | true =>
    have hm : (main k db failAt).1
        = [.backupEv (backup_data db.live), .migrateEv true] := by
      unfold main
      simp [hres]
    rw [hm]
    refine ⟨rfl, by simp, fun s ok hmem => ?_, fun _ s ok hmem => ?_, fun hfalse => ?_⟩
    · simp at hmem
    · simp at hmem
    · exact absurd hfalse (by simp)
  | false =>
    have hm : (main k db failAt).1
        = [.backupEv (backup_data db.live), .migrateEv false,
            .restoreEv (backup_data db.live)
              (restore_from_backup k (backup_data db.live)
                (migrate_to_jsonb k.isPg db failAt).2.live).1] := by
      unfold main
      simp [hres]
    rw [hm]
    refine ⟨rfl, by simp, fun s ok hmem => ?_, fun htrue _ _ _ => ?_, fun _ => by simp⟩
    · simp at hmem
      exact ⟨hmem.1, by simp⟩
    · simp at htrue

/-- Witness for C7: on a non-PostgreSQL deployment migration reports failure,
so the restore is attempted with the snapshot of the (empty) table. -/
theorem C7_orchestration_witness :
    ∃ ok, Event.restoreEv (Json.arr []) ok
        ∈ (main .generic ⟨[], none⟩ (fun _ => false)).1 := by
  obtain ⟨snap, h1, _, _, _, _, h6⟩ :=
    C7_orchestration .generic ⟨[], none⟩ (fun _ => false)
  subst h1
  exact ⟨_, h6 (by decide)⟩

/-- Claim C1: on a table with unique ids whose rows all load cleanly, saving
a structured mapping value under `(t, i)` and then loading type `t` yields
exactly one pair with id `i`, and its value is structurally equal to the
saved mapping — under both the TEXT and the JSONB representation of the
`data` column. -/
theorem C1_save_load_round_trip (k : DBKind) (tbl : List Row) (t i : Str)
    (kvs : List (Str × Json)) (h : uniqueIds tbl)
    (hload : ∀ r ∈ tbl, isOkE (loadCell r.cell) = true) :
    ∃ tbl2, save_entity k tbl t i (.obj kvs) = .ok tbl2
      ∧ ∃ l, load_entities tbl2 t = .ok l
          ∧ l.filter (fun p => p.1 == i) = [(i, Json.obj kvs)] := by
  refine ⟨upsertRow tbl i t (encodedCell k (.obj kvs)),
    save_entity_eq k tbl t i _, ?_⟩
  have hecLoad : loadCell (encodedCell k (.obj kvs)) = .ok (.obj kvs) := by
    cases k <;> rfl
  have hallok : ∀ r ∈ upsertRow tbl i t (encodedCell k (.obj kvs)),
      isOkE (loadCell r.cell) = true := by
    intro r hrm
    rcases mem_upsertRow tbl i t _ r hrm with rfl | hrt
    · simp [hecLoad, isOkE]
    · exact hload r hrt
  have hl : load_entities (upsertRow tbl i t (encodedCell k (.obj kvs))) t
      = .ok (((upsertRow tbl i t (encodedCell k (.obj kvs))).filter
          (fun r => r.etype == t)).map (fun r => (r.id, loadVal r.cell))) := by
    unfold load_entities
    refine mapM_ok_of_forall _ _ _ (fun r hr => ?_)
    have hmem := (List.mem_filter.1 hr).1
    have hok := hallok r hmem
    cases hc : loadCell r.cell with
    | ok v =>
      have hv : loadVal r.cell = v := by simp [loadVal, hc]
      rw [hv]
      rfl
    | error e =>
      rw [hc] at hok
      simp [isOkE] at hok
  refine ⟨_, hl, ?_⟩
  rw [List.filter_map]
  have hcomp : ((fun p : Str × Json => p.1 == i) ∘ (fun r : Row => (r.id, loadVal r.cell)))
      = fun r : Row => r.id == i := rfl
  rw [hcomp, List.filter_filter]
  have hcomm : (upsertRow tbl i t (encodedCell k (.obj kvs))).filter
        (fun a => (a.id == i) && (a.etype == t))
      = (upsertRow tbl i t (encodedCell k (.obj kvs))).filter
        (fun a => (a.etype == t) && (a.id == i)) :=
    List.filter_congr (fun x _ => by rw [Bool.and_comm])
  rw [hcomm, ← List.filter_filter,
    upsertRow_filter_id tbl i t (encodedCell k (.obj kvs)) h]
  simp [loadVal, hecLoad]

/-- Witness for C1 on the empty TEXT-column table. -/
theorem C1_save_load_round_trip_witness :
    ∃ tbl2, save_entity .generic [] (.plain "agent") (.plain "a1")
        (.obj [(.plain "role", .str (.plain "x"))]) = .ok tbl2
      ∧ ∃ l, load_entities tbl2 (.plain "agent") = .ok l
          ∧ l.filter (fun p => p.1 == Str.plain "a1")
            = [(Str.plain "a1", Json.obj [(.plain "role", .str (.plain "x"))])] :=
  C1_save_load_round_trip .generic [] (.plain "agent") (.plain "a1")
    [(.plain "role", .str (.plain "x"))] (by decide) (by decide)

theorem bindDataParam_ok_of_wfData (k : DBKind) (d : Json)
    (hw : wfData k d = true) : bindDataParam k d = .ok (bindDataCell k d) := by
  cases k with
  | generic => rfl
  | postgres =>
    cases d with
    | str s =>
      cases s with
      | jsonOf v => rfl
      | plain ss => simp [wfData, Str.loads] at hw
    | null => rfl
    | bool b => simp [wfData] at hw
    | num n => simp [wfData] at hw
    | arr xs => simp [wfData] at hw
    | obj fs => simp [wfData] at hw

theorem bindDataParam_error_of_not_wfData (k : DBKind) (d : Json)
    (hw : wfData k d = false) : bindDataParam k d = .error () := by
  cases k with
  | generic => simp [wfData] at hw
  | postgres =>
    cases d with
    | str s =>
      cases s with
      | jsonOf v => simp [wfData, Str.loads] at hw
      | plain ss => rfl
    | null => simp [wfData] at hw
    | bool b => rfl
    | num n => rfl
    | arr xs => rfl
    | obj fs => rfl

theorem recBinds_of_wellFormed (k : DBKind) (e : Json)
    (hw : wellFormedRec k e = true) : recBinds k e = true := by
  cases e with
  | obj fields =>
    rw [wellFormedRec] at hw
    rw [recBinds]
    cases h1 : fields.lookup (Str.plain "id") with
    | none => rw [h1] at hw; simp at hw
    | some v1 =>
      rw [h1] at hw
      cases v1 with
      | str i =>
        cases h2 : fields.lookup (Str.plain "entity_type") with
        | none => rw [h2] at hw; simp at hw
        | some v2 =>
          rw [h2] at hw
          cases v2 with
          | str et =>
            cases h3 : fields.lookup (Str.plain "data") with
            | none => rw [h3] at hw; simp at hw
            | some d =>
              rw [h3] at hw
              have hwd : wfData k d = true := by simpa using hw
              simp [bindKeyParam, isOkE, bindDataParam_ok_of_wfData k d hwd]
          | null => simp at hw
          | bool b => simp at hw
          | num n => simp at hw
          | arr xs => simp at hw
          | obj fs => simp at hw
      | null => simp at hw
      | bool b => simp at hw
      | num n => simp at hw
      | arr xs => simp at hw
      | obj fs => simp at hw
  | null => simp [wellFormedRec] at hw
  | bool b => simp [wellFormedRec] at hw
  | num n => simp [wellFormedRec] at hw
  | str s => simp [wellFormedRec] at hw
  | arr xs => simp [wellFormedRec] at hw

theorem no_bind_of_aborts (k : DBKind) (e : Json)
    (ha : abortsRec k e = true) : recBinds k e = false := by
  cases e with
  | obj fields =>
    rw [abortsRec] at ha
    rw [recBinds]
    cases h1 : fields.lookup (Str.plain "id") with
    | none => simp
    | some vi =>
      rw [h1] at ha
      cases h2 : fields.lookup (Str.plain "entity_type") with
      | none => simp
      | some vt =>
        rw [h2] at ha
        cases h3 : fields.lookup (Str.plain "data") with
        | none => simp
        | some d =>
          rw [h3] at ha
          have hwd : wfData k d = false := by simpa using ha
          simp [isOkE, bindDataParam_error_of_not_wfData k d hwd]
  | null => rfl
  | bool b => rfl
  | num n => rfl
  | str s => rfl
  | arr xs => rfl

theorem importRecord_binds_ok (k : DBKind) (tbl : List Row) (e : Json)
    (hb : recBinds k e = true) :
    importRecord k tbl e = .ok (upsertRow tbl (recKeyField k e "id")
      (recKeyField k e "entity_type") (bindDataCell k (recDataField e))) := by
  cases e with
  | obj fields =>
    rw [recBinds] at hb
    cases h1 : fields.lookup (Str.plain "id") with
    | none => rw [h1] at hb; simp at hb
    | some vi =>
      rw [h1] at hb
      cases h2 : fields.lookup (Str.plain "entity_type") with
      | none => rw [h2] at hb; simp at hb
      | some vt =>
        rw [h2] at hb
        cases h3 : fields.lookup (Str.plain "data") with
        | none => rw [h3] at hb; simp at hb
        | some d =>
          rw [h3] at hb
          simp only [Bool.and_eq_true] at hb
          obtain ⟨⟨hb1, hb2⟩, hb3⟩ := hb
          obtain ⟨i, hk1⟩ : ∃ i, bindKeyParam k vi = .ok i := by
            cases hk : bindKeyParam k vi with
            | ok i => exact ⟨i, rfl⟩
            | error u => rw [hk] at hb1; simp [isOkE] at hb1
          obtain ⟨et, hk2⟩ : ∃ et, bindKeyParam k vt = .ok et := by
            cases hk : bindKeyParam k vt with
            | ok et => exact ⟨et, rfl⟩
            | error u => rw [hk] at hb2; simp [isOkE] at hb2
          obtain ⟨c, hk3⟩ : ∃ c, bindDataParam k d = .ok c := by
            cases hk : bindDataParam k d with
            | ok c => exact ⟨c, rfl⟩
            | error u => rw [hk] at hb3; simp [isOkE] at hb3
          have hf1 : recKeyField k (.obj fields) "id" = i := by
            simp [recKeyField, h1, hk1]
          have hf2 : recKeyField k (.obj fields) "entity_type" = et := by
            simp [recKeyField, h2, hk2]
          have hf3 : bindDataCell k (recDataField (.obj fields)) = c := by
            simp [bindDataCell, recDataField, h3, hk3]
          rw [importRecord.eq_def]
          simp only [h1, h2, h3, hk1, hk2, hk3, hf1, hf2, hf3]
          rfl
  | null => simp [recBinds] at hb
  | bool b => simp [recBinds] at hb
  | num n => simp [recBinds] at hb
  | str s => simp [recBinds] at hb
  | arr xs => simp [recBinds] at hb

theorem importRecord_no_bind_error (k : DBKind) (tbl : List Row) (e : Json)
    (hb : recBinds k e = false) :
    importRecord k tbl e = .error () := by
  cases e with
  | obj fields =>
    rw [recBinds] at hb
    rw [importRecord.eq_def]
    cases h1 : fields.lookup (Str.plain "id") with
    | none => simp [h1]
    | some vi =>
      rw [h1] at hb
      cases h2 : fields.lookup (Str.plain "entity_type") with
      | none => simp [h1, h2]
      | some vt =>
        rw [h2] at hb
        cases h3 : fields.lookup (Str.plain "data") with
        | none => simp [h1, h2, h3]
        | some d =>
          rw [h3] at hb
          simp only [h1, h2, h3]
          cases hk1 : bindKeyParam k vi with
          | error u =>
            cases u
            rfl
          | ok i =>
            cases hk2 : bindKeyParam k vt with
            | error u =>
              cases u
              rfl
            | ok et =>
              cases hk3 : bindDataParam k d with
              | error u =>
                cases u
                rfl
              | ok c =>
                simp [hk1, hk2, hk3, isOkE] at hb
  | null => rfl
  | bool b => rfl
  | num n => rfl
  | str s => rfl
  | arr xs => rfl

theorem foldlM_import_error (k : DBKind) :
    ∀ (es : List Json) (tbl : List Row),
    (∃ e ∈ es, recBinds k e = false) →
    es.foldlM (importRecord k) tbl = .error ()
  | [], tbl, h => by simp at h
  | e :: es, tbl, h => by
    cases hw : recBinds k e with
    | false =>
      rw [List.foldlM_cons, importRecord_no_bind_error k tbl e hw]
      rfl
    | true =>
      rcases h with ⟨x, hx, hxw⟩
      rcases List.mem_cons.1 hx with rfl | hx2
      · rw [hw] at hxw
        exact absurd hxw (by simp)
      · rw [List.foldlM_cons, importRecord_binds_ok k tbl e hw]
        exact foldlM_import_error k es _ ⟨x, hx2, hxw⟩

theorem foldlM_import_ok (k : DBKind) :
    ∀ (es : List Json) (tbl : List Row),
    (∀ e ∈ es, recBinds k e = true) →
    es.foldlM (importRecord k) tbl
      = .ok (es.foldl (fun acc e => upsertRow acc (recKeyField k e "id")
          (recKeyField k e "entity_type") (bindDataCell k (recDataField e))) tbl)
  | [], tbl, _ => rfl
  | e :: es, tbl, h => by
    rw [List.foldlM_cons, importRecord_binds_ok k tbl e (h e (by simp)),
      List.foldl_cons]
    exact foldlM_import_ok k es _ (fun x hx => h x (by simp [hx]))

/-- Claim C5 (amended): a record that is not a three-field object, or whose
`data` value cannot be bound to the current representation, aborts the
entire import before the single final commit, so no record of the document reaches
the table; a document of records conforming to the snapshot format (string
`id` and `entity_type`, bindable `data`) is upserted in full.  A non-string
`id` or `entity_type` on a generic engine is coerced to its text form and
committed rather than aborting, so such format-malformed records do not
trigger the abort — see the counterexample. -/
theorem C5_import_abort_or_commit (k : DBKind) (tbl : List Row) (es : List Json) :
    ((∃ e ∈ es, abortsRec k e = true) →
      import_from_json k tbl (.arr es) = .error ())
    ∧ ((∀ e ∈ es, wellFormedRec k e = true) →
      import_from_json k tbl (.arr es)
        = .ok (es.foldl (fun acc e => upsertRow acc (recKeyField k e "id")
            (recKeyField k e "entity_type") (bindDataCell k (recDataField e))) tbl)) :=
  ⟨fun h => by
    rcases h with ⟨e, he, ha⟩
    exact foldlM_import_error k es tbl ⟨e, he, no_bind_of_aborts k e ha⟩,
   fun h => foldlM_import_ok k es tbl (fun e he => recBinds_of_wellFormed k e (h e he))⟩

/-- Counterexample to claim C5 as stated: this record is malformed for the
snapshot format — its `id` is the number 5, not a string — yet on a generic
engine the import does not abort: the key is coerced to its text form and the
record is committed. -/
theorem C5_import_counterexample :
    wellFormedRec .generic (.obj [(.plain "id", .num 5),
        (.plain "entity_type", .str (.plain "t")), (.plain "data", .obj [])]) = false
    ∧ import_from_json .generic [] (.arr [.obj [(.plain "id", .num 5),
        (.plain "entity_type", .str (.plain "t")), (.plain "data", .obj [])]])
      = .ok [⟨.jsonOf (.num 5), .plain "t", .text (.jsonOf (.obj []))⟩] := by
  constructor
  · rfl
  · rfl

/-- Witness for C5: a non-object record aborts with no change, and a single
format-conformant record is upserted. -/
theorem C5_import_abort_or_commit_witness :
    import_from_json .postgres [] (.arr [.null]) = .error ()
      ∧ import_from_json .generic []
          (.arr [Json.obj [(.plain "id", .str (.plain "a")),
            (.plain "entity_type", .str (.plain "t")), (.plain "data", .obj [])]])
        = .ok [⟨.plain "a", .plain "t", .text (.jsonOf (.obj []))⟩] :=
  ⟨(C5_import_abort_or_commit .postgres [] [.null]).1 ⟨.null, by simp, by decide⟩,
   ((C5_import_abort_or_commit .generic [] _).2 (by decide)).trans rfl⟩

theorem rowIsMapping_shape (k : DBKind) (r : Row) (h : rowIsMapping k r = true) :
    (k = .generic ∧ ∃ fs, r.cell = .text (.jsonOf (.obj fs)))
    ∨ (k = .postgres ∧ ∃ fs, r.cell = .jsonb (.obj fs)) := by
  cases k with
  | generic =>
    cases hc : r.cell with
    | text s =>
      cases s with
      | jsonOf v =>
        cases v with
        | obj fs => exact Or.inl ⟨rfl, fs, rfl⟩
        | null => simp [rowIsMapping, hc] at h
        | bool b => simp [rowIsMapping, hc] at h
        | num n => simp [rowIsMapping, hc] at h
        | str ss => simp [rowIsMapping, hc] at h
        | arr xs => simp [rowIsMapping, hc] at h
      | plain ss => simp [rowIsMapping, hc] at h
    | jsonb v => simp [rowIsMapping, hc] at h
    | sqlNull => simp [rowIsMapping, hc] at h
  | postgres =>
    cases hc : r.cell with
    | jsonb v =>
      cases v with
      | obj fs => exact Or.inr ⟨rfl, fs, rfl⟩
      | null => simp [rowIsMapping, hc] at h
      | bool b => simp [rowIsMapping, hc] at h
      | num n => simp [rowIsMapping, hc] at h
      | str ss => simp [rowIsMapping, hc] at h
      | arr xs => simp [rowIsMapping, hc] at h
    | text s => simp [rowIsMapping, hc] at h
    | sqlNull => simp [rowIsMapping, hc] at h

theorem exportCell_of_mapping (k : DBKind) (r : Row) (h : rowIsMapping k r = true) :
    exportCell k r.cell = .ok (rowData r) := by
  rcases rowIsMapping_shape k r h with ⟨hk, fs, hc⟩ | ⟨hk, fs, hc⟩ <;> subst hk <;>
    simp [exportCell, rowData, Str.loads, hc]

theorem bind_text_of_mapping (r : Row) (h : rowIsMapping .generic r = true) :
    bindDataParam .generic (rowData r) = .ok r.cell := by
  rcases rowIsMapping_shape .generic r h with ⟨_, fs, hc⟩ | ⟨hk, _⟩
  · simp [bindDataParam, castParam, rowData, Str.loads, Json.dumps, hc]
  · exact absurd hk (by decide)

theorem import_export_records :
    ∀ (rows : List Row) (acc : List Row),
    (∀ r ∈ rows, rowIsMapping .generic r = true) →
    (rows.map Row.id).Nodup →
    (∀ r ∈ rows, ∀ a ∈ acc, a.id ≠ r.id) →
    (rows.map (fun r => recordToJson ⟨r.id, r.etype, rowData r⟩)).foldlM
        (importRecord .generic) acc = .ok (acc ++ rows)
  | [], acc, _, _, _ => by
    show (pure acc : Except Unit (List Row)) = .ok (acc ++ [])
    rw [List.append_nil]
    rfl
  | r :: rows, acc, hmap, hnodup, hdisj => by
    rw [List.map_cons] at hnodup
    rw [List.map_cons, List.foldlM_cons]
    have k1 : (Str.plain "entity_type" == Str.plain "id") = false := by decide
    have k2 : (Str.plain "data" == Str.plain "id") = false := by decide
    have k3 : (Str.plain "data" == Str.plain "entity_type") = false := by decide
    have hb := bind_text_of_mapping r (hmap r (by simp))
    have himp : importRecord .generic acc (recordToJson ⟨r.id, r.etype, rowData r⟩)
        = .ok (upsertRow acc r.id r.etype r.cell) := by
      rw [recordToJson, importRecord.eq_def]
      simp only [List.lookup, beq_self_eq_true, k1, k2, k3, bindKeyParam, hb]
      rfl
    have hup : upsertRow acc r.id r.etype r.cell = acc ++ [r] := by
      have hnone : acc.any (fun a => a.id == r.id) = false := by
        rw [List.any_eq_false]
        intro a ha
        simp [hdisj r (by simp) a ha]
      rw [upsertRow, hnone]
      rfl
    rw [himp, hup]
    have ih := import_export_records rows (acc ++ [r])
      (fun x hx => hmap x (by simp [hx]))
      ((List.nodup_cons.1 hnodup).2)
      (by
        intro x hx a ha
        rcases List.mem_append.1 ha with ha2 | ha2
        · exact hdisj x (by simp [hx]) a ha2
        · have hrx : r.id ∉ rows.map Row.id := (List.nodup_cons.1 hnodup).1
          have : a = r := by simpa using ha2
          subst this
          intro heq
          exact hrx (heq ▸ List.mem_map_of_mem Row.id hx))
    rw [List.append_assoc] at ih
    exact ih

/-- Claim C4 (amended): on a TEXT-column table of the spec's data model
(unique primary keys, structured-mapping `data`), `export_to_json` succeeds
and writes a single JSON array whose elements are exactly the three-field
objects `{id, entity_type, data}`, and `import_from_json` of that document
into an empty table reproduces the exact original row set.  Under the
structured-JSON representation the export side still holds, but the import
fails to re-bind structured `data` values — see the counterexample. -/
theorem C4_export_import_round_trip_text (tbl : List Row)
    (hids : uniqueIds tbl) (hmap : ∀ r ∈ tbl, rowIsMapping .generic r = true) :
    ∃ recs : List Record,
      export_to_json .generic tbl = .ok (.arr (recs.map recordToJson))
      ∧ import_from_json .generic [] (.arr (recs.map recordToJson)) = .ok tbl := by
  refine ⟨tbl.map (fun r => ⟨r.id, r.etype, rowData r⟩), ?_, ?_⟩
  · have hexp := mapM_ok_of_forall
      (fun r => (exportCell .generic r.cell).map
        (fun d => recordToJson ⟨r.id, r.etype, d⟩))
      (fun r => recordToJson ⟨r.id, r.etype, rowData r⟩) tbl
      (fun r hr => by
        show (exportCell .generic r.cell).map
            (fun d => recordToJson ⟨r.id, r.etype, d⟩)
            = Except.ok (recordToJson ⟨r.id, r.etype, rowData r⟩)
        rw [exportCell_of_mapping .generic r (hmap r hr)]
        rfl)
    rw [export_to_json, hexp]
    rw [List.map_map]
    rfl
  · have ih := import_export_records tbl [] hmap hids
      (by intro x hx a ha; simp at ha)
    rw [List.map_map]
    rw [List.nil_append] at ih
    exact ih

/-- Counterexample to claim C4 as stated: under the structured-JSON
representation the export of a one-row table succeeds, but importing the
produced document into an empty table errors — the structured `data` value
cannot be bound back to the `jsonb` column — so the round trip does not
reproduce the row set. -/
theorem C4_export_import_counterexample :
    export_to_json .postgres [⟨.plain "a1", .plain "agent", .jsonb (.obj [])⟩]
      = .ok (.arr [recordToJson ⟨.plain "a1", .plain "agent", .obj []⟩])
    ∧ import_from_json .postgres []
        (.arr [recordToJson ⟨.plain "a1", .plain "agent", .obj []⟩]) = .error () := by
  constructor
  · rfl
  · rfl

/-- Witness for C4 on a one-row TEXT-column table. -/
theorem C4_export_import_round_trip_text_witness :
    ∃ recs : List Record,
      export_to_json .generic
          [⟨.plain "a1", .plain "agent", .text (.jsonOf (.obj []))⟩]
        = .ok (.arr (recs.map recordToJson))
      ∧ import_from_json .generic [] (.arr (recs.map recordToJson))
        = .ok [⟨.plain "a1", .plain "agent", .text (.jsonOf (.obj []))⟩] :=
  C4_export_import_round_trip_text
    [⟨.plain "a1", .plain "agent", .text (.jsonOf (.obj []))⟩]
    (by decide) (by decide)

end CrewDB
